import Mathlib

/-!
Shallow embedding of `tailtracker/tracker.py` (class `TailTracker`),
together with definitions transcribed from the design specification, and
theorems relating the two.

Numeric conventions: Python/numpy floating-point samples are modelled as
exact values (`NpVal`: a finite rational number, NaN, or a signed
infinity, the values numpy true division can produce); angles and
trigonometry are modelled over the reals.  Exceptions that the source can
raise and that escape a function are modelled with `Except`; an exception
that is caught inside a function (the `IndexError` of the search loop)
is modelled with `Option` at the point where it is caught.
-/

/-- Value of a numpy floating-point sample: a finite (rational) number,
NaN, or a signed infinity. -/
inductive NpVal where
  | num : ℚ → NpVal
  | nan : NpVal
  | inf : NpVal
  | ninf : NpVal
deriving DecidableEq, Repr

/-- Numpy true division of two finite samples (`a / b`): division by zero
yields NaN for `0 / 0` and a signed infinity otherwise (numpy emits a
runtime warning there, not an exception). -/
def npDiv (a b : ℚ) : NpVal :=
  if b = 0 then
    if a = 0 then .nan else if 0 < a then .inf else .ninf
  else .num (a / b)

/-- Value of `np.max` over a 2-D array; `none` models the `ValueError`
numpy raises on an empty array. -/
def npMax (img : List (List ℚ)) : Option ℚ :=
  match img.flatten with
  | [] => none
  | x :: xs => some (xs.foldl max x)

/-- Integer indexing of a numpy axis of length `l.length`: a negative
index within range counts from the end; an index out of range is an
`IndexError`, modelled as `none`. -/
def npGetElt {α : Type} (l : List α) (i : ℤ) : Option α :=
  let j := if i < 0 then i + l.length else i
  if 0 ≤ j then l.get? j.toNat else none

/-- Two-dimensional numpy indexing `buf[y, x]` with bounds checking and
negative-index wrapping on each axis. -/
def npGet2 (buf : List (List NpVal)) (y x : ℤ) : Option NpVal :=
  (npGetElt buf y).bind fun row => npGetElt row x

/-- Test used by `np.argmin` for replacing the current best sample `b`
with a later sample `v`: a NaN takes precedence over any non-NaN sample
(numpy reports the position of the first NaN), otherwise the strict IEEE
order with infinities. -/
def npReplaceLt : NpVal → NpVal → Bool
  | .nan, .nan => false
  | .nan, _ => true
  | _, .nan => false
  | .ninf, .ninf => false
  | .ninf, _ => true
  | _, .ninf => false
  | .num a, .num b => decide (a < b)
  | .num _, .inf => true
  | .inf, _ => false

/-- Test used by `np.argmax` for replacing the current best sample (same
NaN precedence as `npReplaceLt`, reversed order otherwise). -/
def npReplaceGt : NpVal → NpVal → Bool
  | .nan, .nan => false
  | .nan, _ => true
  | _, .nan => false
  | .inf, .inf => false
  | .inf, _ => true
  | _, .inf => false
  | .num a, .num b => decide (b < a)
  | .num _, .ninf => true
  | .ninf, _ => false

/-- Scan underlying `np.argmin` / `np.argmax`: `best` is the current
extremal sample, `bestIdx` its position, `i` the position of the head of
the remaining list. -/
def npArgExtAux (repl : NpVal → NpVal → Bool) :
    List NpVal → NpVal → ℕ → ℕ → ℕ
  | [], _, bestIdx, _ => bestIdx
  | v :: vs, best, bestIdx, i =>
    if repl v best then npArgExtAux repl vs v i (i + 1)
    else npArgExtAux repl vs best bestIdx (i + 1)

/-- Position returned by `np.argmin` / `np.argmax` on a 1-D array: first
position of the extremal sample, first NaN position when a NaN is
present.  Numpy raises `ValueError` on an empty array; that case is
unreachable in the tracker (the arc always holds 20 samples) and is given
the value 0 here. -/
def npArgExt (repl : NpVal → NpVal → Bool) : List NpVal → ℕ
  | [] => 0
  | v :: vs => npArgExtAux repl vs v 0 1

/-- The extremum-selection function stored in the tracker's
`_minmax_function` attribute: `np.argmin` or `np.argmax`. -/
inductive NpArgFn where
  | argmin : NpArgFn
  | argmax : NpArgFn
deriving DecidableEq, Repr

/-- Application of the stored selection function to a 1-D array. -/
def NpArgFn.apply : NpArgFn → List NpVal → ℕ
  | .argmin => npArgExt npReplaceLt
  | .argmax => npArgExt npReplaceGt

/-- Value of `np.linspace a b n`: `n` evenly spaced samples from `a` to
`b`, endpoints included. -/
noncomputable def linspace (a b : ℝ) (n : ℕ) : List ℝ :=
  (List.range n).map fun i : ℕ => a + (b - a) * (i : ℝ) / ((n : ℝ) - 1)

/-- Conversion of a float to an int as performed by `ndarray.astype(int)`
and by Python `int(...)`: truncation toward zero. -/
noncomputable def truncInt (x : ℝ) : ℤ := if 0 ≤ x then ⌊x⌋ else ⌈x⌉

/-- Value of `np.arctan2 y x`: the argument of the complex number
`x + i*y`, in `(-pi, pi]`, with `arctan2 0 0 = 0`. -/
noncomputable def arctan2 (y x : ℝ) : ℝ := Complex.arg ⟨x, y⟩

/-- Loop state of the arc search inside `TailTracker.track`: current
position `(x, y)`, current 20-sample arc of angles, and the chain of
points collected so far. -/
structure ArcState where
  x : ℤ
  y : ℤ
  arc : List ℝ
  points : List (ℤ × ℤ)

/-- Truncated x coordinates of the arc candidates, line 173/176 of
`tracker.py` (`xs = (x + spacing * np.cos(arc)).astype(int)`). -/
noncomputable def arcXs (spacing : ℝ) (st : ArcState) : List ℤ :=
  st.arc.map fun θ => truncInt ((st.x : ℝ) + spacing * Real.cos θ)

/-- Truncated y coordinates of the arc candidates, line 174/176 of
`tracker.py` (`ys = (y - spacing * np.sin(arc)).astype(int)`). -/
noncomputable def arcYs (spacing : ℝ) (st : ArcState) : List ℤ :=
  st.arc.map fun θ => truncInt ((st.y : ℝ) - spacing * Real.sin θ)

/-- Sampling `track_image[ys, xs]` (line 178): `none` exactly when some
candidate coordinate raises `IndexError`. -/
noncomputable def sampleArc (buf : List (List NpVal)) (spacing : ℝ)
    (st : ArcState) : Option (List NpVal) :=
  ((arcYs spacing st).zip (arcXs spacing st)).mapM fun p => npGet2 buf p.1 p.2

/-- One iteration of the search loop of `TailTracker.track` (lines
170-187): on a successful sample the extremal candidate becomes the new
position, the arc is re-centred on that candidate's angle and the
candidate is appended to the chain; on `IndexError` the previous chain
point is repeated and position and arc are left unchanged.  An empty
`points` list is unreachable (the chain is seeded with the start point)
and is left unchanged by the recovery branch. -/
noncomputable def arcStep (buf : List (List NpVal)) (mm : NpArgFn)
    (spacing : ℝ) (st : ArcState) : ArcState :=
  match sampleArc buf spacing st with
  | none =>
    { st with points := st.points ++ (match st.points.getLast? with
        | some p => [p]
        | none => []) }
  | some vals =>
    let idx := mm.apply vals
    let x := (arcXs spacing st).getD idx 0
    let y := (arcYs spacing st).getD idx 0
    let a := st.arc.getD idx 0
    { x := x, y := y,
      arc := linspace (a - Real.pi / 2) (a + Real.pi / 2) 20,
      points := st.points ++ [(x, y)] }

/-- The arc-search part of `TailTracker.track` (lines 163-189) as a
function of the filtered buffer and the seed configuration, returning the
chain of tail points. -/
noncomputable def arcSearch (buf : List (List NpVal)) (mm : NpArgFn)
    (start_point : ℤ × ℤ) (tail_length : ℤ) (n_points : ℕ)
    (start_angle : ℝ) : List (ℤ × ℤ) :=
  let spacing : ℝ := (tail_length : ℝ) / (n_points : ℝ)
  let arc := (linspace (-(Real.pi / 2)) (Real.pi / 2) 20).map (· + start_angle)
  ((arcStep buf mm spacing)^[n_points]
    { x := start_point.1, y := start_point.2, arc := arc,
      points := [(start_point.1, start_point.2)] }).points

/-- Mean of a list of reals (`np.nanmean` over samples containing no NaN;
an integer point chain never contains NaN).  The empty list (where numpy
would warn and yield NaN) is unreachable under the hypotheses of the
theorems below. -/
noncomputable def listMean (l : List ℝ) : ℝ := l.sum / l.length

/-- Python slice `a[-n:]` of a list: the last `n` elements for `n ≥ 1`,
the whole list for `n = 0` (since `a[-0:]` is `a[0:]`). -/
def lastSlice {α : Type} (l : List α) (n : ℕ) : List α :=
  if n = 0 then l else l.drop (l.length - n)

/-- `TailTracker.compute_tail_angle` (lines 111-137): the tail vector
from the first chain point to the mean of the last `n_points` chain
points, minus the baseline unit vector, fed to `np.arctan2` with the
usual sign flip.  Indexing the first point of an empty chain would raise
in Python; the default `(0, 0)` is unreachable under the hypotheses of
the theorems below. -/
noncomputable def compute_tail_angle (tail_points : List (ℝ × ℝ))
    (n_points : ℕ) (baseline : ℝ) : ℝ :=
  let v0 : ℝ × ℝ := (Real.cos baseline, Real.sin baseline)
  let tail := lastSlice tail_points n_points
  let tip : ℝ × ℝ := (listMean (tail.map Prod.fst), listMean (tail.map Prod.snd))
  let p0 : ℝ × ℝ := tail_points.headD (0, 0)
  let v1 : ℝ × ℝ := (tip.1 - p0.1, tip.2 - p0.2)
  arctan2 (-(v1.2 - v0.2)) (v1.1 - v0.1)

/-- The `TailTracker` object: the seed configuration, the defaulted
options, and the mutable attributes written by `track`. -/
structure TailTracker where
  start_point : Option (ℤ × ℤ)
  tail_length : Option ℤ
  n_points : Option ℕ
  start_angle : ℝ
  _background : String
  _minmax_function : NpArgFn
  ksize : ℕ
  n_tip_points : ℕ
  _image : Option (List (List ℚ))
  _normalized : Option (List (List NpVal))
  _filtered : Option (List (List NpVal))
  points : List (ℤ × ℤ)
  points_array : List (ℤ × ℤ)
  tail_angle : ℝ

/-- Value of Python `str.lower()` (character-wise lower-casing). -/
def pyLower (s : String) : String := ⟨s.data.map Char.toLower⟩

/-- The `background` property setter (lines 102-109): stores the
lower-cased name and the matching extremum-selection function
(`np.argmax` for a dark background, `np.argmin` otherwise). -/
def setBackground (t : TailTracker) (val : String) : TailTracker :=
  { t with _background := pyLower val,
           _minmax_function :=
             if pyLower val = "dark" then .argmax else .argmin }

/-- `TailTracker.__init__` (lines 71-96), with the defaulted arguments
made explicit; the background is assigned through its property setter. -/
def TailTracker.init (start_point : Option (ℤ × ℤ)) (tail_length : Option ℤ)
    (n_points : Option ℕ) (start_angle : ℝ) (background : String)
    (ksize : ℕ) (n_tip_points : ℕ) : TailTracker :=
  setBackground
    { start_point := start_point, tail_length := tail_length,
      n_points := n_points, start_angle := start_angle,
      _background := background, _minmax_function := .argmin,
      ksize := ksize, n_tip_points := n_tip_points,
      _image := none, _normalized := none, _filtered := none,
      points := [], points_array := [], tail_angle := 0 }
    background

/-- Exceptions that can escape `TailTracker.track`: `ValueError` from
`np.max` on an empty frame and `ZeroDivisionError` from
`float(tail_length) / n_points` when `n_points = 0`. -/
inductive TrackErr where
  | valueError : TrackErr
  | zeroDivisionError : TrackErr
deriving DecidableEq, Repr

/-- `TailTracker.preprocess` (lines 139-145).  The external
`cv2.boxFilter` call is abstracted as the function argument `boxFilter`
(given the kernel size); normalization follows numpy true-division
semantics and raises nothing when the maximum is zero. -/
def TailTracker.preprocess
    (boxFilter : ℕ → List (List NpVal) → List (List NpVal))
    (t : TailTracker) (image : List (List ℚ)) :
    Except TrackErr (TailTracker × List (List NpVal)) :=
  match npMax image with
  | none => .error .valueError
  | some m =>
    let normalized := image.map fun row => row.map fun a => npDiv a m
    let filtered := boxFilter t.ksize normalized
    .ok ({ t with _image := some image, _normalized := some normalized,
                  _filtered := some filtered }, filtered)

/-- `TailTracker.track` (lines 147-192), returning the updated tracker
object and the tracking result: `none` when any of `start_point`,
`tail_length`, `n_points` is unset, otherwise the tail angle together
with the chain of points stored in `self.points`. -/
noncomputable def TailTracker.track
    (boxFilter : ℕ → List (List NpVal) → List (List NpVal))
    (t : TailTracker) (image : List (List ℚ)) :
    Except TrackErr (TailTracker × Option (ℝ × List (ℤ × ℤ))) :=
  match t.start_point, t.tail_length, t.n_points with
  | some sp, some tl, some k =>
    match TailTracker.preprocess boxFilter t image with
    | .error e => .error e
    | .ok (t1, filtered) =>
      if k = 0 then .error .zeroDivisionError
      else
        let pts := arcSearch filtered t._minmax_function sp tl k t.start_angle
        let angle := compute_tail_angle
          (pts.map fun p => ((p.1 : ℝ), (p.2 : ℝ))) t.n_tip_points t.start_angle
        .ok ({ t1 with
                points := pts, points_array := pts, tail_angle := angle },
          some (angle, pts))
  | _, _, _ => .ok (t, none)

/-- Euclidean norm of an integer vector (`np.linalg.norm`). -/
noncomputable def euclidNorm (v : ℤ × ℤ) : ℝ :=
  Real.sqrt ((v.1 : ℝ) ^ 2 + (v.2 : ℝ) ^ 2)

/-- `TailTracker.from_points` (lines 63-69), with the remaining
constructor arguments at their declared defaults: the tail length is the
norm of `p1 - p0` truncated by `int(...)`, the start angle is
`np.arctan2(-v.y, v.x)`. -/
noncomputable def TailTracker.from_points (p0 p1 : ℤ × ℤ) (n : ℕ) :
    TailTracker :=
  let v : ℤ × ℤ := (p1.1 - p0.1, p1.2 - p0.2)
  let d : ℤ := truncInt (euclidNorm v)
  let angle : ℝ := arctan2 (-(v.2 : ℝ)) (v.1 : ℝ)
  TailTracker.init (some p0) (some d) (some n) angle "light" 7 3

/-- Equality of the configuration parameters of two trackers: the fields
the specification groups as TrackerConfig, including the selection
function the background setter derives from the background string. -/
def configEq (t₁ t₂ : TailTracker) : Prop :=
  t₁.start_point = t₂.start_point ∧ t₁.tail_length = t₂.tail_length ∧
  t₁.n_points = t₂.n_points ∧ t₁.start_angle = t₂.start_angle ∧
  t₁._background = t₂._background ∧
  t₁._minmax_function = t₂._minmax_function ∧
  t₁.ksize = t₂.ksize ∧ t₁.n_tip_points = t₂.n_tip_points

namespace Spec

/-- Background polarity from the specification's TrackerConfig. -/
inductive Background where
  | light : Background
  | dark : Background
deriving DecidableEq, Repr

/-- Background tag denoted by the tracker's background string: "dark"
(after lower-casing) selects Dark, anything else Light, matching the
dispatch of the setter. -/
def ofString (s : String) : Background :=
  if pyLower s = "dark" then .dark else .light

/-- State of the specification's arc search: position, current arc centre
angle, and chain. -/
structure State where
  x : ℤ
  y : ℤ
  a : ℝ
  chain : List (ℤ × ℤ)

/-- Specification 4.2 step (a): 20 angles evenly spaced across a 180° arc
centred on `a`, from `a - 90°` to `a + 90°`. -/
noncomputable def angles (a : ℝ) : List ℝ :=
  linspace (a - Real.pi / 2) (a + Real.pi / 2) 20

/-- Specification 4.2 step (d): select the candidate index via argmin for
a light background and argmax for a dark background. -/
def select : Background → List NpVal → ℕ
  | .light => npArgExt npReplaceLt
  | .dark => npArgExt npReplaceGt

/-- One step of the specification's search (4.2, steps a-f): candidate
pixels `(x + spacing*cos θ, y - spacing*sin θ)` truncated to integers for
each sampled angle θ, evaluated in the filtered buffer; the extremal
candidate is selected, becomes the new position and is appended to the
chain, and the next arc is centred on its angle; if any candidate falls
outside the buffer, the previous chain point is repeated and the state is
kept unchanged. -/
noncomputable def step (buf : List (List NpVal)) (bg : Background)
    (spacing : ℝ) (st : State) : State :=
  let θs := angles st.a
  let cands := θs.map fun θ =>
    (truncInt ((st.x : ℝ) + spacing * Real.cos θ),
     truncInt ((st.y : ℝ) - spacing * Real.sin θ))
  match cands.mapM (fun c => npGet2 buf c.2 c.1) with
  | none =>
    { st with chain := st.chain ++ (match st.chain.getLast? with
        | some p => [p]
        | none => []) }
  | some vals =>
    let i := select bg vals
    let c := cands.getD i (0, 0)
    { x := c.1, y := c.2, a := θs.getD i 0, chain := st.chain ++ [c] }

/-- The specification's ArcSearchTracker algorithm (4.2): spacing
`tail_length / n_points`, chain seeded with the start point, search angle
seeded with the start angle, `n_points` steps. -/
noncomputable def arcSearch (buf : List (List NpVal)) (bg : Background)
    (start_point : ℤ × ℤ) (tail_length : ℤ) (n_points : ℕ)
    (start_angle : ℝ) : List (ℤ × ℤ) :=
  ((step buf bg ((tail_length : ℝ) / (n_points : ℝ)))^[n_points]
    { x := start_point.1, y := start_point.2, a := start_angle,
      chain := [start_point] }).chain

/-- The specification's AngleEstimator (4.3): tip is the coordinate-wise
mean of the last `n_tip_points` chain points, the tail vector runs from
the first chain point to the tip, and the result is
`arctan2 (-dy) dx` for the tail vector minus the baseline unit vector. -/
noncomputable def angle (chain : List (ℝ × ℝ)) (baseline : ℝ)
    (n_tip_points : ℕ) : ℝ :=
  let tail := chain.drop (chain.length - n_tip_points)
  let tip : ℝ × ℝ := (listMean (tail.map Prod.fst), listMean (tail.map Prod.snd))
  let c0 : ℝ × ℝ := chain.headD (0, 0)
  let tv : ℝ × ℝ := (tip.1 - c0.1, tip.2 - c0.2)
  let bv : ℝ × ℝ := (Real.cos baseline, Real.sin baseline)
  arctan2 (-(tv.2 - bv.2)) (tv.1 - bv.1)

end Spec

/-- Simulation relation between the loop state of the implementation's
arc search and the state of the specification's search: same position,
same chain, and the stored arc is the 20-angle arc centred on the
specification's current angle. -/
def simRel (st : ArcState) (ss : Spec.State) : Prop :=
  st.x = ss.x ∧ st.y = ss.y ∧ st.points = ss.chain ∧
  st.arc = Spec.angles ss.a

/-- Correspondence between the stored selection function and the
specification's background tag. -/
def bgRel (mm : NpArgFn) (bg : Spec.Background) : Prop :=
  (bg = .light ∧ mm = .argmin) ∨ (bg = .dark ∧ mm = .argmax)

/-! ### Concrete instances used by the witnesses below -/

/-- Identity stand-in for the external box filter. -/
def bf0 : ℕ → List (List NpVal) → List (List NpVal) := fun _ b => b

/-- A configured tracker with zero tail length (so every candidate
coincides with the current point). -/
noncomputable def t0 : TailTracker :=
  TailTracker.init (some (0, 0)) (some 0) (some 1) 0 "light" 7 3

/-- A tracker with an unset start point. -/
noncomputable def tUnconf : TailTracker :=
  TailTracker.init none (some 1) (some 1) 0 "light" 7 3

/-- A search state sitting far to the right of a 1 x 1 buffer. -/
noncomputable def st1 : ArcState :=
  { x := 100, y := 0, arc := [0], points := [(100, 0)] }

/-- A search state with a negative x coordinate over a 1 x 2 buffer. -/
noncomputable def st2 : ArcState :=
  { x := -1, y := 0, arc := [0], points := [(-1, 0)] }

/-- The seed state of the search performed by `track` on `t0`. -/
noncomputable def st0 : ArcState :=
  { x := 0, y := 0,
    arc := (linspace (-(Real.pi / 2)) (Real.pi / 2) 20).map (· + (0 : ℝ)),
    points := [(0, 0)] }

/-- The tracker object produced by running `track bf0 t0 [[1]]`. -/
noncomputable def tr0 : TailTracker :=
  { start_point := some (0, 0), tail_length := some 0, n_points := some 1,
    start_angle := 0, _background := "light", _minmax_function := .argmin,
    ksize := 7, n_tip_points := 3,
    _image := some [[1]], _normalized := some [[.num 1]],
    _filtered := some [[.num 1]],
    points := [(0, 0), (0, 0)], points_array := [(0, 0), (0, 0)],
    tail_angle := Real.pi }

/-! ### Helper lemmas -/

lemma list_mapM_map {α β γ : Type} (g : β → Option γ) (h : α → β)
    (l : List α) : (l.map h).mapM g = l.mapM fun x => g (h x) := by
  induction l with
  | nil => rfl
  | cons a l ih => rw [List.map_cons, List.mapM_cons, List.mapM_cons, ih]

lemma head?_append_left {α : Type} (l l' : List α) (h : l ≠ []) :
    (l ++ l').head? = l.head? := by
  cases l with
  | nil => exact absurd rfl h
  | cons a l => simp

lemma getD_map_pair_fst {α : Type} (l : List α) (f g : α → ℤ) (i : ℕ) :
    ((l.map fun θ => (f θ, g θ)).getD i (0, 0)).1 = (l.map f).getD i 0 := by
  simp only [List.getD_eq_getElem?_getD, List.getElem?_map]
  cases l[i]? <;> simp

lemma getD_map_pair_snd {α : Type} (l : List α) (f g : α → ℤ) (i : ℕ) :
    ((l.map fun θ => (f θ, g θ)).getD i (0, 0)).2 = (l.map g).getD i 0 := by
  simp only [List.getD_eq_getElem?_getD, List.getElem?_map]
  cases l[i]? <;> simp

lemma map_const_of_eq {α β : Type} {l : List α} {f : α → β} {c : β}
    (h : ∀ x ∈ l, f x = c) : l.map f = List.replicate l.length c := by
  induction l with
  | nil => rfl
  | cons a l ih =>
    simp only [List.map_cons, List.length_cons, List.replicate_succ,
      List.cons.injEq]
    exact ⟨h a (by simp), ih fun x hx => h x (by simp [hx])⟩

lemma zip_replicate_eq {α β : Type} (a : α) (b : β) (n : ℕ) :
    (List.replicate n a).zip (List.replicate n b) = List.replicate n (a, b) := by
  induction n with
  | zero => rfl
  | succ n ih => simp [List.replicate_succ, ih]

lemma mapM_replicate_some {α β : Type} {f : α → Option β} {a : α} {b : β}
    (h : f a = some b) (n : ℕ) :
    (List.replicate n a).mapM f = some (List.replicate n b) := by
  induction n with
  | zero => rfl
  | succ n ih => rw [List.replicate_succ, List.mapM_cons, h, ih]; rfl

/-! ### C5: unset seed fields give an absent result, not an exception -/

/-- C5: for every frame and every tracker in which any of `start_point`,
`tail_length`, `n_points` is unset, `track` returns the absent result
(the tracker unchanged and no angle/chain), not an exception, regardless
of the frame's contents. -/
theorem c5_unconfigured_returns_absent
    (bf : ℕ → List (List NpVal) → List (List NpVal)) (t : TailTracker)
    (img : List (List ℚ))
    (h : t.start_point = none ∨ t.tail_length = none ∨ t.n_points = none) :
    TailTracker.track bf t img = .ok (t, none) := by
  rcases hsp : t.start_point with _ | sp <;>
    rcases htl : t.tail_length with _ | tl <;>
      rcases hk : t.n_points with _ | k <;>
        simp [TailTracker.track, hsp, htl, hk] at h ⊢

/-- Witness for C5 at a concrete unconfigured tracker and frame. -/
theorem c5_witness :
    (tUnconf.start_point = none ∨ tUnconf.tail_length = none ∨
      tUnconf.n_points = none) ∧
    TailTracker.track bf0 tUnconf [[1]] = .ok (tUnconf, none) :=
  ⟨Or.inl rfl, c5_unconfigured_returns_absent bf0 tUnconf [[1]] (Or.inl rfl)⟩

/-! ### C3: out-of-bounds candidates are recovered locally -/

/-- C3: whenever sampling the arc candidates raises `IndexError`, the
search step appends the previous chain point unchanged and continues with
the same position and the same arc; the error is not surfaced. -/
theorem c3_out_of_bounds_recovery (buf : List (List NpVal)) (mm : NpArgFn)
    (spacing : ℝ) (st : ArcState) (p : ℤ × ℤ)
    (hlast : st.points.getLast? = some p)
    (hs : sampleArc buf spacing st = none) :
    (arcStep buf mm spacing st).x = st.x ∧
    (arcStep buf mm spacing st).y = st.y ∧
    (arcStep buf mm spacing st).arc = st.arc ∧
    (arcStep buf mm spacing st).points = st.points ++ [p] := by
  simp [arcStep, hs, hlast]

lemma sampleArc_st1_none : sampleArc [[.num 1]] 5 st1 = none := by
  have hx : arcXs 5 st1 = [105] := by
    have h105 : ((100 : ℤ) : ℝ) + 5 * Real.cos 0 = ((105 : ℤ) : ℝ) := by
      rw [Real.cos_zero]; push_cast; norm_num
    simp [arcXs, st1, h105, truncInt, Int.floor_intCast,
      Int.cast_nonneg.mpr (by norm_num : (0 : ℤ) ≤ 105)]
  have hy : arcYs 5 st1 = [0] := by
    have h0 : ((0 : ℤ) : ℝ) - 5 * Real.sin 0 = ((0 : ℤ) : ℝ) := by
      rw [Real.sin_zero]; push_cast; norm_num
    simp [arcYs, st1, h0, truncInt]
  rw [sampleArc, hx, hy]
  decide

/-- Witness for C3: over a 1 x 1 buffer, a state sitting at x = 100 with
spacing 5 puts every arc candidate out of bounds, and the step repeats
the previous chain point with position and arc unchanged. -/
theorem c3_witness :
    st1.points.getLast? = some (100, 0) ∧
    sampleArc [[.num 1]] 5 st1 = none ∧
    ((arcStep [[.num 1]] .argmin 5 st1).x = st1.x ∧
      (arcStep [[.num 1]] .argmin 5 st1).y = st1.y ∧
      (arcStep [[.num 1]] .argmin 5 st1).arc = st1.arc ∧
      (arcStep [[.num 1]] .argmin 5 st1).points = st1.points ++ [(100, 0)]) :=
  ⟨rfl, sampleArc_st1_none,
    c3_out_of_bounds_recovery [[.num 1]] .argmin 5 st1 (100, 0) rfl
      sampleArc_st1_none⟩

/-! ### C7: from_points truncates the euclidean distance -/

lemma from_points_tail_length (p0 p1 : ℤ × ℤ) (n : ℕ) :
    (TailTracker.from_points p0 p1 n).tail_length
      = some (truncInt (euclidNorm (p1.1 - p0.1, p1.2 - p0.2))) := by
  simp [TailTracker.from_points, TailTracker.init, setBackground]

lemma floor_sqrt_two : ⌊Real.sqrt 2⌋ = 1 := by
  have hs := Real.sq_sqrt (by norm_num : (0 : ℝ) ≤ 2)
  have hnn := Real.sqrt_nonneg 2
  rw [Int.floor_eq_iff]
  constructor
  · push_cast
    nlinarith
  · push_cast
    nlinarith

/-- Counterexample for C7 as stated: at `p0 = (0,0)`, `p1 = (1,1)` the
configured tail length is the integer 1, not the euclidean distance
`sqrt 2`. -/
theorem c7_counterexample :
    (TailTracker.from_points (0, 0) (1, 1) 5).tail_length.map (fun d => (d : ℝ))
      ≠ some (euclidNorm (1 - 0, 1 - 0)) := by
  have h2 : euclidNorm (1 - 0, 1 - 0) = Real.sqrt 2 := by
    simp [euclidNorm]
    norm_num
  have hd : (TailTracker.from_points (0, 0) (1, 1) 5).tail_length = some 1 := by
    rw [from_points_tail_length]
    have : euclidNorm ((1 : ℤ) - 0, (1 : ℤ) - 0) = Real.sqrt 2 := h2
    simp only [this, truncInt, if_pos (Real.sqrt_nonneg 2), floor_sqrt_two]
  rw [hd, h2]
  have hgt : (1 : ℝ) < Real.sqrt 2 := by
    have hs := Real.sq_sqrt (by norm_num : (0 : ℝ) ≤ 2)
    nlinarith [Real.sqrt_nonneg 2]
  intro h
  have h1 : ((1 : ℤ) : ℝ) = Real.sqrt 2 := Option.some.inj h
  rw [show ((1 : ℤ) : ℝ) = (1 : ℝ) by norm_num] at h1
  rw [← h1] at hgt
  norm_num at hgt

/-- C7 amended: `from_points` sets `tail_length` to the euclidean
distance between the two points truncated to an integer by `int(...)`;
in particular `(0,0)`, `(10,0)` yields tail length 10. -/
theorem c7_amended_tail_length (p0 p1 : ℤ × ℤ) (n : ℕ) :
    (TailTracker.from_points p0 p1 n).tail_length
      = some (truncInt (euclidNorm (p1.1 - p0.1, p1.2 - p0.2))) ∧
    (TailTracker.from_points (0, 0) (10, 0) n).tail_length = some 10 := by
  refine ⟨from_points_tail_length p0 p1 n, ?_⟩
  rw [from_points_tail_length]
  have h10 : euclidNorm ((10 : ℤ) - 0, (0 : ℤ) - 0) = 10 := by
    simp [euclidNorm]
  rw [h10]
  simp [truncInt]

/-! ### C8: from_points start angle and start point -/

/-- C8: `from_points` sets `start_point` to the first point and
`start_angle` to `arctan2(-(p1.y - p0.y), p1.x - p0.x)`; in particular
`(0,0)`, `(0,10)` yields start angle `-pi/2`. -/
theorem c8_from_points_angle (p0 p1 : ℤ × ℤ) (n : ℕ) :
    (TailTracker.from_points p0 p1 n).start_angle
      = arctan2 (-((p1.2 - p0.2 : ℤ) : ℝ)) ((p1.1 - p0.1 : ℤ) : ℝ) ∧
    (TailTracker.from_points p0 p1 n).start_point = some p0 ∧
    (TailTracker.from_points (0, 0) (0, 10) n).start_angle = -(Real.pi / 2) := by
  refine ⟨by simp [TailTracker.from_points, TailTracker.init, setBackground],
    by simp [TailTracker.from_points, TailTracker.init, setBackground], ?_⟩
  have h1 : (TailTracker.from_points (0, 0) (0, 10) n).start_angle
      = arctan2 (-(10 : ℝ)) 0 := by
    simp [TailTracker.from_points, TailTracker.init, setBackground]
  rw [h1, arctan2]
  have : (⟨0, -10⟩ : ℂ) = ((10 : ℝ) : ℂ) * (-Complex.I) := by
    apply Complex.ext <;> simp
  rw [this, Complex.arg_real_mul _ (by norm_num : (0 : ℝ) < 10),
    Complex.arg_neg_I]

/-! ### C2: the chain has n_points + 1 points and starts at start_point -/

lemma arcStep_points_ne_nil (buf : List (List NpVal)) (mm : NpArgFn)
    (spacing : ℝ) (st : ArcState) (h : st.points ≠ []) :
    (arcStep buf mm spacing st).points ≠ [] := by
  unfold arcStep
  cases hs : sampleArc buf spacing st with
  | none => cases hl : st.points.getLast? with
    | none => exact absurd (List.getLast?_eq_none_iff.mp hl) h
    | some p => simp
  | some vals => simp

lemma arcStep_points_length (buf : List (List NpVal)) (mm : NpArgFn)
    (spacing : ℝ) (st : ArcState) (h : st.points ≠ []) :
    (arcStep buf mm spacing st).points.length = st.points.length + 1 := by
  unfold arcStep
  cases hs : sampleArc buf spacing st with
  | none => cases hl : st.points.getLast? with
    | none => exact absurd (List.getLast?_eq_none_iff.mp hl) h
    | some p => simp
  | some vals => simp

lemma arcStep_points_head? (buf : List (List NpVal)) (mm : NpArgFn)
    (spacing : ℝ) (st : ArcState) (h : st.points ≠ []) :
    (arcStep buf mm spacing st).points.head? = st.points.head? := by
  unfold arcStep
  cases hs : sampleArc buf spacing st with
  | none => cases hl : st.points.getLast? with
    | none => exact absurd (List.getLast?_eq_none_iff.mp hl) h
    | some p => simpa using head?_append_left st.points [p] h
  | some vals =>
    simpa using head?_append_left st.points
      [((arcXs spacing st).getD (mm.apply vals) 0,
        (arcYs spacing st).getD (mm.apply vals) 0)] h

lemma arcStep_iterate_points (buf : List (List NpVal)) (mm : NpArgFn)
    (spacing : ℝ) (n : ℕ) :
    ∀ st : ArcState, st.points ≠ [] →
      ((arcStep buf mm spacing)^[n] st).points.length = st.points.length + n ∧
      ((arcStep buf mm spacing)^[n] st).points.head? = st.points.head? := by
  induction n with
  | zero => intro st _; simp
  | succ n ih =>
    intro st h
    rw [Function.iterate_succ_apply]
    obtain ⟨hlen, hhead⟩ :=
      ih (arcStep buf mm spacing st) (arcStep_points_ne_nil buf mm spacing st h)
    refine ⟨?_, ?_⟩
    · rw [hlen, arcStep_points_length buf mm spacing st h]
      omega
    · rw [hhead, arcStep_points_head? buf mm spacing st h]

lemma arcSearch_length_head (buf : List (List NpVal)) (mm : NpArgFn)
    (sp : ℤ × ℤ) (tl : ℤ) (k : ℕ) (a : ℝ) :
    (arcSearch buf mm sp tl k a).length = k + 1 ∧
    (arcSearch buf mm sp tl k a).head? = some sp := by
  unfold arcSearch
  obtain ⟨hlen, hhead⟩ := arcStep_iterate_points buf mm
    ((tl : ℝ) / (k : ℝ)) k
    { x := sp.1, y := sp.2,
      arc := (linspace (-(Real.pi / 2)) (Real.pi / 2) 20).map (· + a),
      points := [(sp.1, sp.2)] } (by simp)
  refine ⟨?_, ?_⟩
  · rw [hlen]
    simp only [List.length_singleton]
    omega
  · rw [hhead]
    simp

/-- C2: whenever `track` returns a chain (the configured case), the chain
holds exactly `n_points + 1` points and its first point is exactly the
configured `start_point`. -/
theorem c2_chain_length_and_head
    (bf : ℕ → List (List NpVal) → List (List NpVal)) (t : TailTracker)
    (img : List (List ℚ)) (t' : TailTracker) (a : ℝ) (pts : List (ℤ × ℤ))
    (k : ℕ) (hk : t.n_points = some k)
    (h : TailTracker.track bf t img = .ok (t', some (a, pts))) :
    pts.length = k + 1 ∧ pts.head? = t.start_point := by
  rcases hsp : t.start_point with _ | sp
  · rw [TailTracker.track] at h
    rw [hsp] at h
    simp at h
  · rcases htl : t.tail_length with _ | tl
    · rw [TailTracker.track] at h
      rw [hsp, htl] at h
      simp at h
    · cases hm : npMax img with
      | none =>
        rw [TailTracker.track, hsp, htl, hk, TailTracker.preprocess, hm] at h
        simp at h
      | some m =>
        rcases Nat.eq_zero_or_pos k with hk0 | hk0
        · subst hk0
          rw [TailTracker.track, hsp, htl, hk, TailTracker.preprocess, hm] at h
          simp at h
        · have hkne : k ≠ 0 := Nat.pos_iff_ne_zero.mp hk0
          rw [TailTracker.track, hsp, htl, hk, TailTracker.preprocess, hm] at h
          simp only [hkne, if_false, Except.ok.injEq, Prod.mk.injEq,
            Option.some.injEq] at h
          obtain ⟨-, -, hpts⟩ := h
          obtain ⟨hlen, hhead⟩ := arcSearch_length_head
            (bf t.ksize (img.map fun row => row.map fun v => npDiv v m))
            t._minmax_function sp tl k t.start_angle
          rw [← hpts]
          exact ⟨hlen, hhead⟩

lemma linspace_length (a b : ℝ) (n : ℕ) : (linspace a b n).length = n := by
  rw [linspace, List.length_map, List.length_range]

lemma st0_arc_length : st0.arc.length = 20 := by
  show ((linspace (-(Real.pi / 2)) (Real.pi / 2) 20).map (· + (0 : ℝ))).length
    = 20
  rw [List.length_map, linspace_length]

lemma arcXs_st0 : arcXs 0 st0 = List.replicate 20 0 := by
  rw [arcXs]
  rw [map_const_of_eq (fun θ _ => by simp [st0, truncInt] : ∀ θ ∈ st0.arc,
    truncInt ((st0.x : ℝ) + 0 * Real.cos θ) = 0)]
  rw [st0_arc_length]

lemma arcYs_st0 : arcYs 0 st0 = List.replicate 20 0 := by
  rw [arcYs]
  rw [map_const_of_eq (fun θ _ => by simp [st0, truncInt] : ∀ θ ∈ st0.arc,
    truncInt ((st0.y : ℝ) - 0 * Real.sin θ) = 0)]
  rw [st0_arc_length]

lemma sampleArc_st0 :
    sampleArc [[.num 1]] 0 st0 = some (List.replicate 20 (.num 1)) := by
  rw [sampleArc, arcXs_st0, arcYs_st0, zip_replicate_eq]
  exact mapM_replicate_some (by decide) 20

lemma arcSearch_eval0 :
    arcSearch [[.num 1]] .argmin (0, 0) 0 1 0 = [(0, 0), (0, 0)] := by
  rw [arcSearch]
  rw [show (((0 : ℤ) : ℝ) / ((1 : ℕ) : ℝ)) = 0 by norm_num]
  rw [Function.iterate_one]
  show (arcStep [[.num 1]] .argmin 0 st0).points = [(0, 0), (0, 0)]
  rw [arcStep, sampleArc_st0]
  have hidx : NpArgFn.apply .argmin (List.replicate 20 (.num 1)) = 0 := by
    decide
  simp only [hidx, arcXs_st0, arcYs_st0]
  simp [st0]

lemma cta_eval0 : compute_tail_angle ([0, 0] : List (ℝ × ℝ)) 3 0 = Real.pi := by
  rw [compute_tail_angle]
  simp [lastSlice, listMean]
  rw [arctan2]
  have h1 : (⟨-1, 0⟩ : ℂ) = (-1 : ℂ) := by
    apply Complex.ext <;> simp
  rw [h1, Complex.arg_neg_one]

lemma track_eval0 : TailTracker.track bf0 t0 [[1]]
    = .ok (tr0, some (Real.pi, [(0, 0), (0, 0)])) := by
  rw [TailTracker.track, TailTracker.preprocess]
  rw [show t0.start_point = some ((0 : ℤ), (0 : ℤ)) from rfl,
    show t0.tail_length = some 0 from rfl,
    show t0.n_points = some 1 from rfl,
    show npMax [[1]] = some 1 from rfl]
  have hnorm : ([[(1 : ℚ)]].map fun row => row.map fun a => npDiv a 1)
      = [[.num 1]] := by
    simp [npDiv]
  simp only [hnorm]
  have hmm : t0._minmax_function = .argmin := rfl
  have hsa : t0.start_angle = 0 := rfl
  have hnt : t0.n_tip_points = 3 := rfl
  have hks : t0.ksize = 7 := rfl
  simp only [bf0, hmm, hsa, hnt, hks]
  norm_num
  rw [show arcSearch [[NpVal.num 1]] NpArgFn.argmin 0 0 1 0 = [0, 0] from
    arcSearch_eval0]
  rw [show (List.map (fun p : ℤ × ℤ => ((p.1 : ℝ), (p.2 : ℝ))) [0, 0])
      = ([0, 0] : List (ℝ × ℝ)) from by norm_num]
  rw [cta_eval0]
  exact ⟨rfl, rfl, rfl⟩

/-- Witness for C2: tracking a 1 x 1 frame with a configured tracker of
one point returns a chain of two points headed by the start point. -/
theorem c2_witness :
    t0.n_points = some 1 ∧
    TailTracker.track bf0 t0 [[1]] = .ok (tr0, some (Real.pi, [(0, 0), (0, 0)])) ∧
    ([(0, 0), (0, 0)] : List (ℤ × ℤ)).length = 1 + 1 ∧
    ([(0, 0), (0, 0)] : List (ℤ × ℤ)).head? = t0.start_point :=
  ⟨rfl, track_eval0,
    c2_chain_length_and_head bf0 t0 [[1]] tr0 Real.pi [(0, 0), (0, 0)] 1 rfl
      track_eval0⟩

/-! ### C1: the arc search refines the specification algorithm -/

lemma linspace_map_add (a b c : ℝ) (n : ℕ) :
    (linspace a b n).map (· + c) = linspace (a + c) (b + c) n := by
  rw [linspace, linspace, List.map_map]
  congr 1
  funext i
  simp only [Function.comp_apply]
  ring

lemma arc_init_eq (a : ℝ) :
    (linspace (-(Real.pi / 2)) (Real.pi / 2) 20).map (· + a) = Spec.angles a := by
  rw [linspace_map_add, Spec.angles,
    show -(Real.pi / 2) + a = a - Real.pi / 2 by ring,
    show Real.pi / 2 + a = a + Real.pi / 2 by ring]

lemma arcStep_none {buf : List (List NpVal)} {spacing : ℝ} {st : ArcState}
    (mm : NpArgFn) (h : sampleArc buf spacing st = none) :
    arcStep buf mm spacing st =
      { st with points := st.points ++ (match st.points.getLast? with
          | some p => [p]
          | none => []) } := by
  rw [arcStep, h]

lemma arcStep_some {buf : List (List NpVal)} {spacing : ℝ} {st : ArcState}
    (mm : NpArgFn) {vals : List NpVal}
    (h : sampleArc buf spacing st = some vals) :
    arcStep buf mm spacing st =
      { x := (arcXs spacing st).getD (mm.apply vals) 0,
        y := (arcYs spacing st).getD (mm.apply vals) 0,
        arc := linspace (st.arc.getD (mm.apply vals) 0 - Real.pi / 2)
          (st.arc.getD (mm.apply vals) 0 + Real.pi / 2) 20,
        points := st.points ++ [((arcXs spacing st).getD (mm.apply vals) 0,
          (arcYs spacing st).getD (mm.apply vals) 0)] } := by
  rw [arcStep, h]

lemma specStep_none {buf : List (List NpVal)} {bg : Spec.Background}
    {spacing : ℝ} {ss : Spec.State}
    (h : (((Spec.angles ss.a).map fun θ =>
        (truncInt ((ss.x : ℝ) + spacing * Real.cos θ),
         truncInt ((ss.y : ℝ) - spacing * Real.sin θ))).mapM
        fun c => npGet2 buf c.2 c.1) = none) :
    Spec.step buf bg spacing ss =
      { ss with chain := ss.chain ++ (match ss.chain.getLast? with
          | some p => [p]
          | none => []) } := by
  rw [Spec.step]
  rw [h]

lemma specStep_some {buf : List (List NpVal)} {bg : Spec.Background}
    {spacing : ℝ} {ss : Spec.State} {vals : List NpVal}
    (h : (((Spec.angles ss.a).map fun θ =>
        (truncInt ((ss.x : ℝ) + spacing * Real.cos θ),
         truncInt ((ss.y : ℝ) - spacing * Real.sin θ))).mapM
        fun c => npGet2 buf c.2 c.1) = some vals) :
    Spec.step buf bg spacing ss =
      { x := (((Spec.angles ss.a).map fun θ =>
          (truncInt ((ss.x : ℝ) + spacing * Real.cos θ),
           truncInt ((ss.y : ℝ) - spacing * Real.sin θ))).getD
            (Spec.select bg vals) (0, 0)).1,
        y := (((Spec.angles ss.a).map fun θ =>
          (truncInt ((ss.x : ℝ) + spacing * Real.cos θ),
           truncInt ((ss.y : ℝ) - spacing * Real.sin θ))).getD
            (Spec.select bg vals) (0, 0)).2,
        a := (Spec.angles ss.a).getD (Spec.select bg vals) 0,
        chain := ss.chain ++ [((Spec.angles ss.a).map fun θ =>
          (truncInt ((ss.x : ℝ) + spacing * Real.cos θ),
           truncInt ((ss.y : ℝ) - spacing * Real.sin θ))).getD
            (Spec.select bg vals) (0, 0)] } := by
  rw [Spec.step]
  rw [h]

lemma step_sim (buf : List (List NpVal)) (mm : NpArgFn) (bg : Spec.Background)
    (hmm : bgRel mm bg) (spacing : ℝ) (st : ArcState) (ss : Spec.State)
    (h : simRel st ss) :
    simRel (arcStep buf mm spacing st) (Spec.step buf bg spacing ss) := by
  obtain ⟨hx, hy, hp, ha⟩ := h
  have hsel : ∀ vals, mm.apply vals = Spec.select bg vals := by
    rcases hmm with ⟨hb, hm⟩ | ⟨hb, hm⟩ <;> subst hb <;> subst hm <;>
      intro vals <;> rfl
  have hxs : arcXs spacing st = (Spec.angles ss.a).map
      (fun θ => truncInt ((ss.x : ℝ) + spacing * Real.cos θ)) := by
    rw [arcXs, ha, hx]
  have hys : arcYs spacing st = (Spec.angles ss.a).map
      (fun θ => truncInt ((ss.y : ℝ) - spacing * Real.sin θ)) := by
    rw [arcYs, ha, hy]
  have hscrut : sampleArc buf spacing st
      = ((Spec.angles ss.a).map fun θ =>
          (truncInt ((ss.x : ℝ) + spacing * Real.cos θ),
           truncInt ((ss.y : ℝ) - spacing * Real.sin θ))).mapM
          (fun c => npGet2 buf c.2 c.1) := by
    rw [sampleArc, hxs, hys, List.zip_map', list_mapM_map, list_mapM_map]
  cases hres : ((Spec.angles ss.a).map fun θ =>
      (truncInt ((ss.x : ℝ) + spacing * Real.cos θ),
       truncInt ((ss.y : ℝ) - spacing * Real.sin θ))).mapM
      (fun c => npGet2 buf c.2 c.1) with
  | none =>
    rw [arcStep_none mm (hscrut.trans hres), specStep_none hres]
    exact ⟨hx, hy, by simp only [hp], ha⟩
  | some vals =>
    rw [arcStep_some mm (hscrut.trans hres), specStep_some hres]
    refine ⟨?_, ?_, ?_, ?_⟩
    · simp only [hsel vals, hxs, getD_map_pair_fst]
    · simp only [hsel vals, hys, getD_map_pair_snd]
    · rw [hp, hsel vals, hxs, hys]
      rw [← getD_map_pair_fst (Spec.angles ss.a)
            (fun θ => truncInt ((ss.x : ℝ) + spacing * Real.cos θ))
            (fun θ => truncInt ((ss.y : ℝ) - spacing * Real.sin θ))
            (Spec.select bg vals),
          ← getD_map_pair_snd (Spec.angles ss.a)
            (fun θ => truncInt ((ss.x : ℝ) + spacing * Real.cos θ))
            (fun θ => truncInt ((ss.y : ℝ) - spacing * Real.sin θ))
            (Spec.select bg vals)]
    · simp only [hsel vals, ha, Spec.angles]

lemma sim_iterate (buf : List (List NpVal)) (mm : NpArgFn) (bg : Spec.Background)
    (hmm : bgRel mm bg) (spacing : ℝ) (n : ℕ) :
    ∀ st ss, simRel st ss →
      simRel ((arcStep buf mm spacing)^[n] st)
        ((Spec.step buf bg spacing)^[n] ss) := by
  induction n with
  | zero => intro st ss h; simpa using h
  | succ n ih =>
    intro st ss h
    rw [Function.iterate_succ_apply, Function.iterate_succ_apply]
    exact ih _ _ (step_sim buf mm bg hmm spacing st ss h)

/-- C1: for every configured tracker (built through `__init__` with its
background setter) and every filtered buffer, the implementation's arc
search coincides with the specification's algorithm: spacing
`tail_length / n_points`, 20 angles evenly spaced over the 180-degree arc
centred on the current angle, candidate pixels
`(x + spacing*cos θ, y - spacing*sin θ)` truncated to integers, the
candidate chosen by argmin for a light background and argmax for a dark
background, the chosen candidate appended to the chain, and the next arc
centred on the chosen candidate's angle. -/
theorem c1_arc_search_refines_spec (buf : List (List NpVal)) (s : String)
    (sp : ℤ × ℤ) (tl : ℤ) (k : ℕ) (a : ℝ) (ks ntp : ℕ) :
    arcSearch buf
      (TailTracker.init (some sp) (some tl) (some k) a s ks ntp)._minmax_function
      sp tl k a
      = Spec.arcSearch buf (Spec.ofString s) sp tl k a := by
  have hmm : bgRel (TailTracker.init (some sp) (some tl) (some k) a s ks
      ntp)._minmax_function (Spec.ofString s) := by
    by_cases h : pyLower s = "dark"
    · exact Or.inr ⟨by simp [Spec.ofString, h],
        by simp [TailTracker.init, setBackground, h]⟩
    · exact Or.inl ⟨by simp [Spec.ofString, h],
        by simp [TailTracker.init, setBackground, h]⟩
  simp only [arcSearch, Spec.arcSearch]
  have hinit : simRel
      { x := sp.1, y := sp.2,
        arc := (linspace (-(Real.pi / 2)) (Real.pi / 2) 20).map (· + a),
        points := [(sp.1, sp.2)] }
      { x := sp.1, y := sp.2, a := a, chain := [sp] } :=
    ⟨rfl, rfl, by simp, arc_init_eq a⟩
  exact (sim_iterate buf _ _ hmm ((tl : ℝ) / (k : ℝ)) k _ _ hinit).2.2.1

/-! ### C6: the angle estimator -/

/-- C6: the angle estimator returns `arctan2(-dy, dx)` for
`(dx, dy) = (mean of the last n_tip_points chain points - chain[0]) -
(cos baseline, sin baseline)` (stated as agreement with the
specification's AngleEstimator), and with baseline 0 it returns 0
whenever that mean minus the first point equals `(1, 0)`. -/
theorem c6_angle_estimator :
    (∀ (pts : List (ℝ × ℝ)) (k : ℕ) (b : ℝ), 1 ≤ k → k ≤ pts.length →
      compute_tail_angle pts k b = Spec.angle pts b k) ∧
    (∀ (pts : List (ℝ × ℝ)) (k : ℕ), 1 ≤ k → k ≤ pts.length →
      (listMean ((lastSlice pts k).map Prod.fst) - (pts.headD (0, 0)).1,
       listMean ((lastSlice pts k).map Prod.snd) - (pts.headD (0, 0)).2)
        = ((1 : ℝ), (0 : ℝ)) →
      compute_tail_angle pts k 0 = 0) := by
  constructor
  · intro pts k b hk1 hk2
    have hls : lastSlice pts k = pts.drop (pts.length - k) := by
      rw [lastSlice, if_neg (by omega : ¬ k = 0)]
    rw [compute_tail_angle, Spec.angle, hls]
  · intro pts k hk1 hk2 hmean
    have h1 : listMean ((lastSlice pts k).map Prod.fst)
        - (pts.headD (0, 0)).1 = 1 := by
      simpa using congrArg Prod.fst hmean
    have h2 : listMean ((lastSlice pts k).map Prod.snd)
        - (pts.headD (0, 0)).2 = 0 := by
      simpa using congrArg Prod.snd hmean
    rw [compute_tail_angle]
    simp only [Real.cos_zero, Real.sin_zero]
    rw [show listMean ((lastSlice pts k).map Prod.fst) - (pts.headD (0, 0)).1
        - 1 = 0 by rw [h1]; ring]
    rw [show -(listMean ((lastSlice pts k).map Prod.snd) - (pts.headD (0, 0)).2
        - 0) = 0 by rw [h2]; ring]
    rw [arctan2]
    rw [show (⟨0, 0⟩ : ℂ) = 0 from by apply Complex.ext <;> simp]
    exact Complex.arg_zero

theorem c6_witness :
    ((1 ≤ 1 ∧ 1 ≤ ([((0 : ℝ), (0 : ℝ)), (1, 0)]).length) ∧
      compute_tail_angle [((0 : ℝ), (0 : ℝ)), (1, 0)] 1 0
        = Spec.angle [((0 : ℝ), (0 : ℝ)), (1, 0)] 0 1) ∧
    ((listMean ((lastSlice [((0 : ℝ), (0 : ℝ)), (1, 0)] 1).map Prod.fst)
        - (([((0 : ℝ), (0 : ℝ)), (1, 0)]).headD (0, 0)).1,
      listMean ((lastSlice [((0 : ℝ), (0 : ℝ)), (1, 0)] 1).map Prod.snd)
        - (([((0 : ℝ), (0 : ℝ)), (1, 0)]).headD (0, 0)).2)
        = ((1 : ℝ), (0 : ℝ)) ∧
      compute_tail_angle [((0 : ℝ), (0 : ℝ)), (1, 0)] 1 0 = 0) := by
  have hmean : (listMean ((lastSlice [((0 : ℝ), (0 : ℝ)), (1, 0)] 1).map Prod.fst)
        - (([((0 : ℝ), (0 : ℝ)), (1, 0)]).headD (0, 0)).1,
      listMean ((lastSlice [((0 : ℝ), (0 : ℝ)), (1, 0)] 1).map Prod.snd)
        - (([((0 : ℝ), (0 : ℝ)), (1, 0)]).headD (0, 0)).2)
        = ((1 : ℝ), (0 : ℝ)) := by
    norm_num [lastSlice, listMean]
  exact ⟨⟨⟨le_refl 1, by norm_num⟩,
      c6_angle_estimator.1 [((0 : ℝ), (0 : ℝ)), (1, 0)] 1 0 (le_refl 1)
        (by norm_num)⟩,
    hmean,
    c6_angle_estimator.2 [((0 : ℝ), (0 : ℝ)), (1, 0)] 1 (le_refl 1)
      (by norm_num) hmean⟩

/-! ### C4: a zero-maximum frame does not raise -/

/-- Counterexample for C4 as stated: on the all-zero frame
`[[0,0],[0,0]]`, `preprocess` does not raise any error; it returns a
buffer of NaN samples. -/
theorem c4_counterexample :
    (TailTracker.preprocess bf0 t0 [[0, 0], [0, 0]]).toOption.map Prod.snd
      = some [[.nan, .nan], [.nan, .nan]] := by
  rfl

/-- C4 amended: for every frame whose maximum intensity is zero,
`preprocess` raises nothing: numpy division by the zero maximum yields
NaN for the zero samples and the NaN buffer is returned to the caller.
-/
theorem c4_zero_max_no_exception
    (bf : ℕ → List (List NpVal) → List (List NpVal)) (t : TailTracker)
    (img : List (List ℚ)) (h : npMax img = some 0) :
    TailTracker.preprocess bf t img
      = .ok ({ t with
            _image := some img,
            _normalized := some (img.map fun row => row.map fun a => npDiv a 0),
            _filtered := some (bf t.ksize
              (img.map fun row => row.map fun a => npDiv a 0)) },
          bf t.ksize (img.map fun row => row.map fun a => npDiv a 0)) := by
  rw [TailTracker.preprocess, h]

theorem c4_witness :
    npMax [[0, 0], [0, 0]] = some 0 ∧
    TailTracker.preprocess bf0 t0 [[0, 0], [0, 0]]
      = .ok ({ t0 with
            _image := some [[0, 0], [0, 0]],
            _normalized := some ([[0, 0], [0, 0]].map fun row =>
              row.map fun a => npDiv a 0),
            _filtered := some (bf0 t0.ksize ([[0, 0], [0, 0]].map fun row =>
              row.map fun a => npDiv a 0)) },
          bf0 t0.ksize ([[0, 0], [0, 0]].map fun row =>
            row.map fun a => npDiv a 0)) :=
  ⟨by decide, c4_zero_max_no_exception bf0 t0 [[0, 0], [0, 0]] (by decide)⟩

/-! ### C9: no config mutation, and determinism in (frame, config) -/

lemma track_ok_preserves_config
    (bf : ℕ → List (List NpVal) → List (List NpVal)) (t : TailTracker)
    (img : List (List ℚ)) (t' : TailTracker) (r : Option (ℝ × List (ℤ × ℤ)))
    (h : TailTracker.track bf t img = .ok (t', r)) :
    t'.start_point = t.start_point ∧ t'.start_angle = t.start_angle ∧
      configEq t' t := by
  rcases hsp : t.start_point with _ | sp <;>
    rcases htl : t.tail_length with _ | tl <;>
      rcases hk : t.n_points with _ | k
  case some.some.some =>
    cases hm : npMax img with
    | none =>
      rw [TailTracker.track, hsp, htl, hk, TailTracker.preprocess, hm] at h
      simp at h
    | some m =>
      rcases Nat.eq_zero_or_pos k with hk0 | hk0
      · subst hk0
        rw [TailTracker.track, hsp, htl, hk, TailTracker.preprocess, hm] at h
        simp at h
      · have hkne : k ≠ 0 := Nat.pos_iff_ne_zero.mp hk0
        rw [TailTracker.track, hsp, htl, hk, TailTracker.preprocess, hm] at h
        simp only [hkne, if_false, Except.ok.injEq, Prod.mk.injEq] at h
        obtain ⟨ht', -⟩ := h
        subst ht'
        exact ⟨hsp, rfl, rfl, rfl, rfl, rfl, rfl, rfl, rfl, rfl⟩
  all_goals
    (rw [TailTracker.track, hsp, htl, hk] at h;
     simp at h;
     obtain ⟨ht', -⟩ := h;
     subst ht';
     exact ⟨hsp, rfl, rfl, rfl, rfl, rfl, rfl, rfl, rfl, rfl⟩)


lemma track_configured_eq (bf : ℕ → List (List NpVal) → List (List NpVal))
    (t : TailTracker) (img : List (List ℚ)) (sp : ℤ × ℤ) (tl : ℤ) (k : ℕ)
    (m : ℚ) (hsp : t.start_point = some sp) (htl : t.tail_length = some tl)
    (hk : t.n_points = some k) (hm : npMax img = some m) (hkne : k ≠ 0) :
    TailTracker.track bf t img = .ok
      ({ t with
          _image := some img,
          _normalized := some (img.map fun row => row.map fun a => npDiv a m),
          _filtered := some (bf t.ksize
            (img.map fun row => row.map fun a => npDiv a m)),
          points := arcSearch (bf t.ksize
              (img.map fun row => row.map fun a => npDiv a m))
            t._minmax_function sp tl k t.start_angle,
          points_array := arcSearch (bf t.ksize
              (img.map fun row => row.map fun a => npDiv a m))
            t._minmax_function sp tl k t.start_angle,
          tail_angle := compute_tail_angle
            ((arcSearch (bf t.ksize
                (img.map fun row => row.map fun a => npDiv a m))
              t._minmax_function sp tl k t.start_angle).map
                fun p => ((p.1 : ℝ), (p.2 : ℝ)))
            t.n_tip_points t.start_angle },
        some (compute_tail_angle
            ((arcSearch (bf t.ksize
                (img.map fun row => row.map fun a => npDiv a m))
              t._minmax_function sp tl k t.start_angle).map
                fun p => ((p.1 : ℝ), (p.2 : ℝ)))
            t.n_tip_points t.start_angle,
          arcSearch (bf t.ksize
              (img.map fun row => row.map fun a => npDiv a m))
            t._minmax_function sp tl k t.start_angle)) := by
  have h : TailTracker.track bf t img = TailTracker.track bf t img := rfl
  nth_rewrite 2 [TailTracker.track] at h
  rw [hsp, htl, hk, TailTracker.preprocess, hm] at h
  simp only [hkne, if_false] at h
  exact h

lemma track_zerodivision_eq (bf : ℕ → List (List NpVal) → List (List NpVal))
    (t : TailTracker) (img : List (List ℚ)) (sp : ℤ × ℤ) (tl : ℤ) (m : ℚ)
    (hsp : t.start_point = some sp) (htl : t.tail_length = some tl)
    (hk : t.n_points = some 0) (hm : npMax img = some m) :
    TailTracker.track bf t img = .error .zeroDivisionError := by
  have h : TailTracker.track bf t img = TailTracker.track bf t img := rfl
  nth_rewrite 2 [TailTracker.track] at h
  rw [hsp, htl, hk, TailTracker.preprocess, hm] at h
  simpa using h

lemma track_valueerror_eq (bf : ℕ → List (List NpVal) → List (List NpVal))
    (t : TailTracker) (img : List (List ℚ)) (sp : ℤ × ℤ) (tl : ℤ) (k : ℕ)
    (hsp : t.start_point = some sp) (htl : t.tail_length = some tl)
    (hk : t.n_points = some k) (hm : npMax img = none) :
    TailTracker.track bf t img = .error .valueError := by
  have h : TailTracker.track bf t img = TailTracker.track bf t img := rfl
  nth_rewrite 2 [TailTracker.track] at h
  rw [hsp, htl, hk, TailTracker.preprocess, hm] at h
  simpa using h

lemma track_unconfigured_eq (bf : ℕ → List (List NpVal) → List (List NpVal))
    (t : TailTracker) (img : List (List ℚ))
    (h : t.start_point = none ∨ t.tail_length = none ∨ t.n_points = none) :
    TailTracker.track bf t img = .ok (t, none) := by
  rcases hsp : t.start_point with _ | sp <;>
    rcases htl : t.tail_length with _ | tl <;>
      rcases hk : t.n_points with _ | k <;>
        simp [TailTracker.track, hsp, htl, hk] at h ⊢

lemma track_output_depends_only_on_config (bf : ℕ → List (List NpVal) → List (List NpVal))
    (t₁ t₂ : TailTracker) (img : List (List ℚ)) (hc : configEq t₁ t₂) :
    (TailTracker.track bf t₁ img).map Prod.snd
      = (TailTracker.track bf t₂ img).map Prod.snd := by
  obtain ⟨h1, h2, h3, h4, h5, h6, h7, h8⟩ := hc
  rcases hsp : t₁.start_point with _ | sp <;>
    rcases htl : t₁.tail_length with _ | tl <;>
      rcases hk : t₁.n_points with _ | k
  case some.some.some =>
    have hsp2 := h1.symm.trans hsp
    have htl2 := h2.symm.trans htl
    have hk2 := h3.symm.trans hk
    cases hm : npMax img with
    | none =>
      rw [track_valueerror_eq bf t₁ img sp tl k hsp htl hk hm,
        track_valueerror_eq bf t₂ img sp tl k hsp2 htl2 hk2 hm]
    | some m =>
      rcases Nat.eq_zero_or_pos k with hk0 | hk0
      · subst hk0
        rw [track_zerodivision_eq bf t₁ img sp tl m hsp htl hk hm,
          track_zerodivision_eq bf t₂ img sp tl m hsp2 htl2 hk2 hm]
      · have hkne : k ≠ 0 := Nat.pos_iff_ne_zero.mp hk0
        rw [track_configured_eq bf t₁ img sp tl k m hsp htl hk hm hkne,
          track_configured_eq bf t₂ img sp tl k m hsp2 htl2 hk2 hm hkne,
          ← h4, ← h6, ← h7, ← h8]
        rfl
  all_goals (
    have hsp2 := h1.symm.trans hsp;
    have htl2 := h2.symm.trans htl;
    have hk2 := h3.symm.trans hk;
    first
    | rw [track_unconfigured_eq bf t₁ img (Or.inl hsp),
        track_unconfigured_eq bf t₂ img (Or.inl hsp2)]
    | rw [track_unconfigured_eq bf t₁ img (Or.inr (Or.inl htl)),
        track_unconfigured_eq bf t₂ img (Or.inr (Or.inl htl2))]
    | rw [track_unconfigured_eq bf t₁ img (Or.inr (Or.inr hk)),
        track_unconfigured_eq bf t₂ img (Or.inr (Or.inr hk2))];
    simp [Except.map])

/-- C9: `track` never mutates `start_point` or `start_angle` (nor any
other configuration field) in the tracker it returns, and the tracking
output (angle and chain) of any two trackers with identical
configurations on the same frame is identical, so results do not depend
on previously tracked frames. -/
theorem c9_no_mutation_and_determinism :
    (∀ (bf : ℕ → List (List NpVal) → List (List NpVal)) (t : TailTracker)
        (img : List (List ℚ)) (t' : TailTracker)
        (r : Option (ℝ × List (ℤ × ℤ))),
      TailTracker.track bf t img = .ok (t', r) →
        t'.start_point = t.start_point ∧ t'.start_angle = t.start_angle ∧
          configEq t' t) ∧
    (∀ (bf : ℕ → List (List NpVal) → List (List NpVal))
        (t₁ t₂ : TailTracker) (img : List (List ℚ)), configEq t₁ t₂ →
      (TailTracker.track bf t₁ img).map Prod.snd
        = (TailTracker.track bf t₂ img).map Prod.snd) :=
  ⟨track_ok_preserves_config, track_output_depends_only_on_config⟩

/-- Witness for C9 at the concrete run of `track bf0 t0 [[1]]`. -/
theorem c9_witness :
    (TailTracker.track bf0 t0 [[1]]
        = .ok (tr0, some (Real.pi, [(0, 0), (0, 0)])) ∧
      tr0.start_point = t0.start_point ∧ tr0.start_angle = t0.start_angle ∧
        configEq tr0 t0) ∧
    (configEq t0 t0 ∧
      (TailTracker.track bf0 t0 [[1]]).map Prod.snd
        = (TailTracker.track bf0 t0 [[1]]).map Prod.snd) :=
  ⟨⟨track_eval0,
    c9_no_mutation_and_determinism.1 bf0 t0 [[1]] tr0
      (some (Real.pi, [(0, 0), (0, 0)])) track_eval0⟩,
   ⟨⟨rfl, rfl, rfl, rfl, rfl, rfl, rfl, rfl⟩,
    c9_no_mutation_and_determinism.2 bf0 t0 t0 [[1]]
      ⟨rfl, rfl, rfl, rfl, rfl, rfl, rfl, rfl⟩⟩⟩

/-! ### C10: negative in-range indices wrap instead of raising -/

/-- C10: a candidate coordinate that is negative but no smaller than the
negated buffer dimension does not raise: numpy indexing wraps it to the
opposite edge (first conjunct); only indices at or beyond a dimension, or
below its negation, are an `IndexError` (second conjunct); and a step
whose sampling succeeds appends the selected candidate (which may itself
have negative coordinates) instead of repeating the previous chain point
(third conjunct). -/
theorem c10_negative_indexing :
    (∀ {α : Type} (l : List α) (i : ℤ), -(l.length : ℤ) ≤ i → i < 0 →
      npGetElt l i = npGetElt l (i + l.length)) ∧
    (∀ {α : Type} (l : List α) (i : ℤ),
      i < -(l.length : ℤ) ∨ (l.length : ℤ) ≤ i → npGetElt l i = none) ∧
    (∀ (buf : List (List NpVal)) (mm : NpArgFn) (spacing : ℝ)
        (st : ArcState) (vals : List NpVal),
      sampleArc buf spacing st = some vals →
      (arcStep buf mm spacing st).points = st.points ++
        [((arcXs spacing st).getD (mm.apply vals) 0,
          (arcYs spacing st).getD (mm.apply vals) 0)]) := by
  refine ⟨?_, ?_, ?_⟩
  · intro α l i h1 h2
    rw [npGetElt, npGetElt]
    have h3 : ¬ (i + (l.length : ℤ) < 0) := by omega
    simp only [if_pos h2, if_neg h3]
  · intro α l i h
    rw [npGetElt]
    rcases h with h | h
    · have h2 : i < 0 := by
        have : (0 : ℤ) ≤ l.length := Int.ofNat_nonneg l.length
        omega
      simp only [if_pos h2]
      have h3 : ¬ (0 ≤ i + (l.length : ℤ)) := by omega
      simp only [if_neg h3]
    · have h2 : ¬ (i < 0) := by
        have : (0 : ℤ) ≤ l.length := Int.ofNat_nonneg l.length
        omega
      simp only [if_neg h2]
      have h3 : (0 : ℤ) ≤ i := by omega
      simp only [if_pos h3]
      exact List.get?_eq_none.mpr (by omega)
  · intro buf mm spacing st vals h
    rw [arcStep_some mm h]

lemma arcXs_st2 : arcXs 0 st2 = [-1] := by
  simp [arcXs, st2, truncInt]
  norm_num
  rw [show ((-1 : ℝ) = ((-1 : ℤ) : ℝ)) by norm_num, Int.ceil_intCast]

lemma arcYs_st2 : arcYs 0 st2 = [0] := by
  simp [arcYs, st2, truncInt]

lemma sampleArc_st2 : sampleArc [[.num 1, .num 2]] 0 st2 = some [.num 2] := by
  rw [sampleArc, arcXs_st2, arcYs_st2]
  decide

theorem c10_witness :
    (-(([NpVal.num 1, .num 2]).length : ℤ) ≤ -1 ∧ (-1 : ℤ) < 0 ∧
      npGetElt [NpVal.num 1, .num 2] (-1)
        = npGetElt [NpVal.num 1, .num 2] (-1 + ([NpVal.num 1, .num 2]).length)) ∧
    ((([NpVal.num 1]).length : ℤ) ≤ 5 ∧ npGetElt [NpVal.num 1] 5 = none) ∧
    (sampleArc [[.num 1, .num 2]] 0 st2 = some [.num 2] ∧
      (arcStep [[.num 1, .num 2]] .argmin 0 st2).points = st2.points ++
        [((arcXs 0 st2).getD (NpArgFn.apply .argmin [.num 2]) 0,
          (arcYs 0 st2).getD (NpArgFn.apply .argmin [.num 2]) 0)]) :=
  ⟨⟨by decide, by decide,
    c10_negative_indexing.1 [NpVal.num 1, .num 2] (-1) (by decide) (by decide)⟩,
   ⟨by decide,
    c10_negative_indexing.2.1 [NpVal.num 1] 5 (Or.inr (by decide))⟩,
   ⟨sampleArc_st2,
    c10_negative_indexing.2.2 [[.num 1, .num 2]] .argmin 0 st2 [.num 2]
      sampleArc_st2⟩⟩
